import Mathlib

/-!
# Verification of the prysm initial-sync block-acquisition pipeline

Shallow embedding of:
* `processBlock`, `roundRobinSync`, `highestFinalizedEpoch`
  (the initial-sync round-robin orchestrator), and
* the chunked-response codec (beacon-chain/sync/rpc_chunked_response.go),

together with theorems about slot monotonicity of the admission gate,
error propagation of the orchestrator, and the framing round-trip of
the chunk codec.

External collaborators (database, in-flight cache, receive callbacks,
peer fetcher, blocks queue) are modelled as explicit function-valued
parameters; machine integers are `Nat` with explicit `% 2^64` wrapping
where overflow matters.
-/

namespace InitialSync

/-- Roots (content hashes of blocks) are modelled abstractly. -/
abbrev Root := Nat

/-- A signed beacon block, reduced to the fields `processBlock` inspects:
its slot and its parent root (`blk.Block.Slot`, `blk.Block.ParentRoot`). -/
structure Block where
  slot : Nat
  parentRoot : Root
  deriving DecidableEq, Repr

/-- The mutable state the orchestrator reads and writes while syncing:
`s.lastProcessedSlot` and the chain head slot `s.chain.HeadSlot()`.
The head slot is advanced only by the external receive callback. -/
structure St where
  lastProcessedSlot : Nat
  chainHead : Nat
  deriving DecidableEq, Repr

/-- The errors `processBlock` can return, one per `return`-with-error
path in the source. -/
inductive ProcessErr where
  /-- `fmt.Errorf("slot %d already processed", ...)` -/
  | slotAlreadyProcessed : ProcessErr
  /-- `stateutil.BlockRoot` failed -/
  | rootFailure : ProcessErr
  /-- `fmt.Errorf("beacon node doesn't have a block in db with root ...")` -/
  | orphanBlock : ProcessErr
  /-- the receive callback returned an error -/
  | receiverError : ProcessErr
  deriving DecidableEq, Repr

/-- A receive callback (`blockReceiverFn`): given the current chain head
slot, the block and its root, it either fails (`none`) or succeeds and
yields the new chain head slot. The callback is external code; it never
touches `lastProcessedSlot`. -/
abbrev RecvFn := Nat → Block → Root → Option Nat

/-- External collaborators consulted by `processBlock`:
`stateutil.BlockRoot`, `s.db.HasBlock` and `s.chain.HasInitSyncBlock`. -/
structure GateEnv where
  blockRoot : Block → Option Root
  dbHasBlock : Root → Bool
  hasInitSyncBlock : Root → Bool

/-- Embedding of `(s *Service) processBlock`:

```
if blk.Block.Slot <= s.lastProcessedSlot { return error }
blkRoot, err := stateutil.BlockRoot(blk.Block); if err != nil { return err }
s.logSyncStatus(...)                       -- side effect only
parentRoot := bytesutil.ToBytes32(blk.Block.ParentRoot)
if !s.db.HasBlock(ctx, parentRoot) && !s.chain.HasInitSyncBlock(parentRoot) {
  return error }
if err := blockReceiver(ctx, blk, blkRoot); err != nil { return err }
s.lastProcessedSlot = blk.Block.Slot
return nil
```

On an error return the service state is unchanged; on success
`lastProcessedSlot` becomes the block's slot and the chain head is
whatever the receive callback made it. -/

def processBlock (env : GateEnv) (recv : RecvFn) (st : St) (blk : Block) :
    Except ProcessErr St :=
  if blk.slot ≤ st.lastProcessedSlot then
    .error .slotAlreadyProcessed
  else
    match env.blockRoot blk with
    | none => .error .rootFailure
    | some blkRoot =>
      if !env.dbHasBlock blk.parentRoot && !env.hasInitSyncBlock blk.parentRoot then
        .error .orphanBlock
      else
        match recv st.chainHead blk blkRoot with
        | none => .error .receiverError
        | some newHead => .ok ⟨blk.slot, newHead⟩

/-- A concrete gate environment for witnesses: every root computes,
only root `0` is stored, the cache is empty. -/
def gateEnvW : GateEnv :=
  { blockRoot := fun blk => some (blk.slot + 100)
    dbHasBlock := fun r => r = 0
    hasInitSyncBlock := fun _ => false }

/-- A concrete receive callback for witnesses: always succeeds and moves
the head to the block's slot. -/
def recvW : RecvFn := fun _ blk _ => some blk.slot

/-- The modulus of Go uint64 arithmetic. -/
def U64 : Nat := 2 ^ 64

/-- uint64 addition. -/
def uadd (a b : Nat) : Nat := (a + b) % U64

/-- uint64 subtraction (wrapping on underflow). -/
def usub (a b : Nat) : Nat := (a + U64 - b % U64) % U64

/-- A `BeaconBlocksByRangeRequest`. -/
structure Req where
  startSlot : Nat
  count : Nat
  step : Nat
  deriving DecidableEq, Repr

/-- The request built in each Phase 2 iteration:

```
count := mathutil.Min(helpers.SlotsSince(genesis)-s.chain.HeadSlot()+1,
                      blocksFetcher.blocksPerSecond)
req := &BeaconBlocksByRangeRequest{StartSlot: s.chain.HeadSlot() + 1,
                                   Count: count, Step: 1}
```

in uint64 arithmetic (the wall clock is frozen, so `SlotsSince` is the
fixed target slot). -/

def mkBatchRequest (slotsSince headSlot bps : Nat) : Req :=
  { startSlot := uadd headSlot 1
    count := min (uadd (usub slotsSince headSlot) 1) bps
    step := 1 }

/-- Phase 1 of `roundRobinSync`:

```
for blk := range queue.fetchedBlocks {
  if err := s.processBlock(ctx, genesis, blk, blockReceiver); err != nil {
    log.WithError(err).Info("Block is not processed")
    continue
  }
}
```

every per-block error is absorbed and iteration continues. -/

def phase1 (env : GateEnv) (recv : RecvFn) : St → List Block → St
  | st, [] => st
  | st, blk :: rest =>
    match processBlock env recv st blk with
    | .error _ => phase1 env recv st rest
    | .ok st' => phase1 env recv st' rest

/-- One Phase 2 batch, processed in order and stopped at the first
failing block (`return nil` in the source). Returns the state reached
and whether the whole batch went through. -/
def processBatch (env : GateEnv) (recv : RecvFn) : St → List Block → St × Bool
  | st, [] => (st, true)
  | st, blk :: rest =>
    match processBlock env recv st blk with
    | .error _ => (st, false)
    | .ok st' => processBatch env recv st' rest

/-- How a run of the orchestrator ended (beyond the `error` value the
Go function returns). -/
inductive Outcome where
  /-- the loop guard failed: the head reached the target slot -/
  | completed : Outcome
  /-- `len(resp) == 0` → `break` (peer has nothing further) -/
  | emptyBatch : Outcome
  /-- `blocksFetcher.requestBlocks` failed → `return nil` -/
  | batchFailed : Outcome
  /-- a block of a Phase 2 batch failed processing → `return nil` -/
  | blockFailed : Outcome
  /-- fuel exhausted (the Go loop would keep iterating) -/
  | fuelOut : Outcome
  deriving DecidableEq, Repr

/-- The collaborators and frozen inputs of one `roundRobinSync` run. -/
structure SyncEnv where
  /-- result of `queue.start()` -/
  queueStartErr : Option Nat
  /-- the blocks delivered on `queue.fetchedBlocks` before it closes -/
  fetchedBlocks : List Block
  gate : GateEnv
  /-- `s.chain.ReceiveBlockInitialSync` -/
  recvInitSync : RecvFn
  /-- `s.chain.ReceiveBlockNoPubsub` -/
  recvNoPubsub : RecvFn
  /-- `blocksFetcher.requestBlocks(ctx, req, best)` -/
  requestBlocks : Req → Option (List Block)
  /-- `blocksFetcher.blocksPerSecond` -/
  blocksPerSecond : Nat
  /-- `helpers.SlotsSince(genesis)` (frozen wall clock) -/
  slotsSinceGenesis : Nat
  /-- `s.chain.HeadSlot()` at entry -/
  initialHeadSlot : Nat

/-- Phase 2 of `roundRobinSync`, fuelled:

```
for head := helpers.SlotsSince(genesis); s.chain.HeadSlot() < head; {
  req := ...; resp, err := blocksFetcher.requestBlocks(ctx, req, best)
  if err != nil { return nil }
  for _, blk := range resp {
    if err := s.processBlock(...); err != nil { return nil } }
  if len(resp) == 0 { break }
}
```

Also returns the list of requests issued, in order. -/

def phase2Loop (env : SyncEnv) : St → Nat → St × Outcome × List Req
  | st, 0 => (st, .fuelOut, [])
  | st, fuel + 1 =>
    if st.chainHead < env.slotsSinceGenesis then
      let req := mkBatchRequest env.slotsSinceGenesis st.chainHead env.blocksPerSecond
      match env.requestBlocks req with
      | none => (st, .batchFailed, [req])
      | some resp =>
        let p := processBatch env.gate env.recvNoPubsub st resp
        if p.2 then
          if resp.isEmpty then (p.1, .emptyBatch, [req])
          else
            let r := phase2Loop env p.1 fuel
            (r.1, r.2.1, req :: r.2.2)
        else (p.1, .blockFailed, [req])
    else (st, .completed, [])

/-- Embedding of `roundRobinSync`: start the queue (propagating its
error), set `lastProcessedSlot := s.chain.HeadSlot()`, drain the queue
through the gate (Phase 1), skip Phase 2 when the head already equals
the wall-clock slot, otherwise run the Phase 2 batch loop. -/
def roundRobinSync (env : SyncEnv) (fuel : Nat) :
    Except Nat (St × Outcome × List Req) :=
  match env.queueStartErr with
  | some e => .error e
  | none =>
    let st0 : St := ⟨env.initialHeadSlot, env.initialHeadSlot⟩
    let st1 := phase1 env.gate env.recvInitSync st0 env.fetchedBlocks
    if st1.chainHead = env.slotsSinceGenesis then .ok (st1, .completed, [])
    else .ok (phase2Loop env st1 fuel)

/-- The `error` value the Go function returns: the queue-start error
when `queue.start()` failed, nil (`none`) on every other path. -/
def goReturn (r : Except Nat (St × Outcome × List Req)) : Option Nat :=
  match r with
  | .error e => some e
  | .ok _ => none

/-- A peer's advertised chain state, reduced to the field
`highestFinalizedEpoch` inspects. -/
structure PeerChainState where
  finalizedEpoch : Nat
  deriving DecidableEq, Repr

/-- The peer directory: `Connected()` and `ChainState(pid)` (where
`none` covers both `err != nil` and a nil chain state). -/
structure PeerEnv where
  connected : List Nat
  chainState : Nat → Option PeerChainState

/-- One step of the `highestFinalizedEpoch` loop:
`if err == nil && peerChainState != nil && peerChainState.FinalizedEpoch > highest`. -/
def hfeStep (p : PeerEnv) (highest pid : Nat) : Nat :=
  match p.chainState pid with
  | some cs => if cs.finalizedEpoch > highest then cs.finalizedEpoch else highest
  | none => highest

/-- Embedding of `highestFinalizedEpoch`: fold over connected peers
starting from 0, keeping the largest retrievable FinalizedEpoch. -/
def highestFinalizedEpoch (p : PeerEnv) : Nat :=
  p.connected.foldl (hfeStep p) 0

/-- `helpers.StartSlot`: the first slot of an epoch, `epoch *
slotsPerEpoch` (the constant lives in external configuration and is
kept as a parameter). -/
def startSlot (slotsPerEpoch epoch : Nat) : Nat := epoch * slotsPerEpoch

/-- The Phase 1 target, line
`highestFinalizedSlot := helpers.StartSlot(s.highestFinalizedEpoch() + 1)`. -/
def phase1Target (slotsPerEpoch : Nat) (p : PeerEnv) : Nat :=
  startSlot slotsPerEpoch (highestFinalizedEpoch p + 1)

/-- A concrete run environment for witnesses: queue starts, Phase 1
delivers nothing, the head (0) is behind the wall clock (slot 10), and
the single selected peer always answers with an empty batch. -/
def envC6 : SyncEnv :=
  { queueStartErr := none
    fetchedBlocks := []
    gate := gateEnvW
    recvInitSync := recvW
    recvNoPubsub := recvW
    requestBlocks := fun _ => some []
    blocksPerSecond := 64
    slotsSinceGenesis := 10
    initialHeadSlot := 0 }

/-- Like `envC6` but every batch holds one block at slot 5 whose parent
root 7 is unknown, so the gate rejects it as an orphan. -/
def envC3 : SyncEnv :=
  { envC6 with requestBlocks := fun _ => some [⟨5, 7⟩] }

/-- A concrete peer directory for witnesses: peers 1 and 2 advertise
finalized epochs 4 and 7, peer 3's chain state is unavailable. -/
def peerEnvW : PeerEnv :=
  { connected := [1, 2, 3]
    chainState := fun pid =>
      if pid = 2 then some ⟨7⟩ else if pid = 1 then some ⟨4⟩ else none }

/-- A concrete peer directory with no peers at all. -/
def peerEnvE : PeerEnv :=
  { connected := []
    chainState := fun _ => none }

end InitialSync

namespace ChunkCodec

/-- Protobuf-style varint encoding of a length, least significant group
first, continuation bit 128. -/
def varintEncode (n : Nat) : List Nat :=
  if h : n < 128 then [n]
  else (n % 128 + 128) :: varintEncode (n / 128)
termination_by n
decreasing_by exact Nat.div_lt_self (by omega) (by omega)

/-- Varint decoding: consumes the length prefix, returns the value and
the remaining stream. -/
def varintDecode : List Nat → Option (Nat × List Nat)
  | [] => none
  | b :: rest =>
    if b < 128 then some (b, rest)
    else
      match varintDecode rest with
      | none => none
      | some (m, rest') => some ((b - 128) + 128 * m, rest')

/-- Modelled from the spec: `result = 0x00` denotes success (§6); the
constant `responseCodeSuccess` is declared outside the excerpt. -/
def responseCodeSuccess : Nat := 0

/-- Modelled from the spec: the negotiated payload encoder's
`EncodeWithMaxLength` (§4.1/§6) — frames an opaque encoded payload as a
length prefix followed by the payload bytes, refusing any payload whose
length exceeds the bound before writing. -/
def encodeWithMaxLength (bound : Nat) (msg : List Nat) : Option (List Nat) :=
  if bound < msg.length then none
  else some (varintEncode msg.length ++ msg)

/-- Modelled from the spec: `DecodeWithMaxLength` (§4.1/§6) — reads the
length prefix, rejects lengths above the bound before any payload
decode, then consumes that many payload bytes, failing on a short
stream. Returns the payload and the remaining stream. -/
def decodeWithMaxLength (bound : Nat) (stream : List Nat) :
    Option (List Nat × List Nat) :=
  match varintDecode stream with
  | none => none
  | some (len, rest) =>
    if bound < len then none
    else if rest.length < len then none
    else some (rest.take len, rest.drop len)

/-- A write stream: its current write deadline and the bytes written so
far. -/
structure WStream where
  deadline : Option Nat
  out : List Nat
  deriving DecidableEq, Repr

/-- The transport: decides whether it accepts a byte sequence; a
`stream.Write` fails when the transport refuses the resulting bytes. -/
abbrev Transport := List Nat → Bool

/-- A single `stream.Write` call. -/
def writeS (acc : Transport) (st : WStream) (bs : List Nat) : Option WStream :=
  if acc (st.out ++ bs) then some { st with out := st.out ++ bs } else none

/-- Modelled from the spec: `defaultWriteDuration`, the bounded write
deadline applied by `chunkWriter` (declared outside the excerpt). -/
def defaultWriteDuration : Nat := 10

/-- Embedding of `WriteChunk`:

```
if _, err := stream.Write([]byte{responseCodeSuccess}); err != nil { return err }
_, err := encoding.EncodeWithMaxLength(stream, msg, maxChunkSize)
return err
```

Returns the final stream state and whether the write succeeded; on an
oversize-encoding failure the status byte has already gone out. -/

def WriteChunk (acc : Transport) (st : WStream) (bound : Nat) (msg : List Nat) :
    WStream × Bool :=
  match writeS acc st [responseCodeSuccess] with
  | none => (st, false)
  | some st1 =>
    match encodeWithMaxLength bound msg with
    | none => (st1, false)
    | some bytes =>
      match writeS acc st1 bytes with
      | none => (st1, false)
      | some st2 => (st2, true)

/-- Embedding of `chunkWriter`: sets the write deadline, then delegates
to `WriteChunk`. -/
def chunkWriter (acc : Transport) (st : WStream) (bound : Nat) (msg : List Nat) :
    WStream × Bool :=
  WriteChunk acc { st with deadline := some defaultWriteDuration } bound msg

/-- The failures of the read path. -/
inductive ReadErr where
  /-- `ReadStatusCode` itself failed (empty stream or bad error frame) -/
  | streamError : ReadErr
  /-- nonzero status: `errors.New(errMsg)` carrying the peer's string -/
  | peerError (msg : List Nat) : ReadErr
  /-- `DecodeWithMaxLength` failed on the payload -/
  | decodeError : ReadErr
  deriving DecidableEq, Repr

/-- Modelled from the spec: `ReadStatusCode` (§4.1) — reads the status
byte; when it is nonzero also reads the accompanying length-prefixed
error string under the same bound. Returns the code, the error string
(empty on success) and the remaining stream. -/
def ReadStatusCode (bound : Nat) (stream : List Nat) :
    Option (Nat × List Nat × List Nat) :=
  match stream with
  | [] => none
  | code :: rest =>
    if code = 0 then some (0, [], rest)
    else
      match decodeWithMaxLength bound rest with
      | none => none
      | some (msg, rest') => some (code, msg, rest')

/-- Embedding of `readResponseChunk`:

```
SetStreamReadDeadline(stream, 10*time.Second)
code, errMsg, err := ReadStatusCode(stream, p2p.Encoding())
if err != nil { return err }
if code != 0 { return errors.New(errMsg) }
return p2p.Encoding().DecodeWithMaxLength(stream, to, maxChunkSize)
```
-/

def readResponseChunk (bound : Nat) (stream : List Nat) :
    Except ReadErr (List Nat) :=
  match ReadStatusCode bound stream with
  | none => .error .streamError
  | some (code, errMsg, rest) =>
    if code ≠ 0 then .error (.peerError errMsg)
    else
      match decodeWithMaxLength bound rest with
      | none => .error .decodeError
      | some (msg, _) => .ok msg

end ChunkCodec

namespace InitialSync

/-- Inversion: a successful `processBlock` call came from a block above
the watermark and set the watermark to the block's slot. -/
theorem processBlock_ok_elim (env : GateEnv) (recv : RecvFn) (st : St)
    (blk : Block) (st' : St)
    (hok : processBlock env recv st blk = .ok st') :
    st.lastProcessedSlot < blk.slot ∧ st'.lastProcessedSlot = blk.slot := by
  unfold processBlock at hok
  split at hok
  · exact absurd hok (by simp)
  next hle =>
    split at hok
    · exact absurd hok (by simp)
    next r hroot =>
      split at hok
      · exact absurd hok (by simp)
      next horph =>
        split at hok
        · exact absurd hok (by simp)
        next h hrecv =>
          simp only [Except.ok.injEq] at hok
          subst hok
          exact ⟨Nat.lt_of_not_le hle, rfl⟩

/-- Introduction: a block above the watermark whose root computes, whose
parent is known to the db or the cache, and whose receive callback
succeeds, is accepted. -/
theorem processBlock_ok_intro (env : GateEnv) (recv : RecvFn) (st : St)
    (blk : Block) (r h : Nat)
    (hlt : st.lastProcessedSlot < blk.slot)
    (hroot : env.blockRoot blk = some r)
    (hpar : env.dbHasBlock blk.parentRoot = true ∨
      env.hasInitSyncBlock blk.parentRoot = true)
    (hrecv : recv st.chainHead blk r = some h) :
    processBlock env recv st blk = .ok ⟨blk.slot, h⟩ := by
  unfold processBlock
  rw [if_neg (Nat.not_le_of_lt hlt)]
  have horph : (!env.dbHasBlock blk.parentRoot &&
      !env.hasInitSyncBlock blk.parentRoot) = false := by
    rcases hpar with h1 | h1 <;> simp [h1]
  simp [hroot, horph, hrecv]

/-- For in-range operands with no underflow, `usub` is plain
subtraction. -/
theorem usub_no_underflow (a b : Nat) (hb : b ≤ a) (ha : a < U64) :
    usub a b = a - b := by
  have h64 : U64 = 18446744073709551616 := by norm_num [U64]
  have hbm : b % U64 = b := Nat.mod_eq_of_lt (lt_of_le_of_lt hb ha)
  unfold usub
  rw [hbm, h64]
  rw [h64] at ha
  omega

/-- For an in-range sum, `uadd` is plain addition. -/
theorem uadd_no_overflow (a b : Nat) (h : a + b < U64) :
    uadd a b = a + b := by
  unfold uadd
  exact Nat.mod_eq_of_lt h

/-- Properties of the request built in one Phase 2 iteration, under the
loop guard `headSlot < slotsSince` and in-range wall clock. -/
theorem mkBatchRequest_spec (ss h bps : Nat) (hg : h < ss) (hss : ss < U64) :
    (mkBatchRequest ss h bps).startSlot = h + 1 ∧
    (mkBatchRequest ss h bps).step = 1 ∧
    (mkBatchRequest ss h bps).count ≤ bps ∧
    usub ss h = ss - h ∧
    (ss - h + 1 < U64 →
      (mkBatchRequest ss h bps).count = min (ss - h + 1) bps) := by
  have husub : usub ss h = ss - h := usub_no_underflow ss h (le_of_lt hg) hss
  refine ⟨?_, rfl, ?_, husub, ?_⟩
  · show uadd h 1 = h + 1
    exact uadd_no_overflow h 1 (by omega)
  · exact min_le_right _ _
  · intro hov
    show min (uadd (usub ss h) 1) bps = _
    rw [husub, uadd_no_overflow _ _ (by omega)]

/-- One loop step either keeps `highest` or returns a retrievable
peer's finalized epoch. -/
theorem hfeStep_cases (p : PeerEnv) (acc pid : Nat) :
    hfeStep p acc pid = acc ∨
    ∃ cs, p.chainState pid = some cs ∧
      hfeStep p acc pid = cs.finalizedEpoch := by
  cases h : p.chainState pid with
  | none => left; simp [hfeStep, h]
  | some cs =>
    by_cases hgt : cs.finalizedEpoch > acc
    · right; exact ⟨cs, rfl, by simp [hfeStep, h, hgt]⟩
    · left; simp [hfeStep, h, hgt]

/-- `highest` never decreases along the loop. -/
theorem hfeStep_le (p : PeerEnv) (acc pid : Nat) :
    acc ≤ hfeStep p acc pid := by
  cases h : p.chainState pid with
  | none => simp [hfeStep, h]
  | some cs =>
    simp only [hfeStep, h]
    split <;> omega

/-- The fold result dominates its accumulator. -/
theorem foldl_hfeStep_le (p : PeerEnv) (l : List Nat) (acc : Nat) :
    acc ≤ l.foldl (hfeStep p) acc := by
  induction l generalizing acc with
  | nil => exact le_refl _
  | cons x xs ih => exact le_trans (hfeStep_le p acc x) (ih _)

/-- The fold result dominates every retrievable finalized epoch in the
list. -/
theorem foldl_hfeStep_bound (p : PeerEnv) (l : List Nat) (acc : Nat) :
    ∀ pid ∈ l, ∀ cs, p.chainState pid = some cs →
      cs.finalizedEpoch ≤ l.foldl (hfeStep p) acc := by
  induction l generalizing acc with
  | nil => intro pid h; simp at h
  | cons x xs ih =>
    intro pid hmem cs hcs
    rcases List.mem_cons.mp hmem with heq | hmem'
    · subst heq
      have h1 : cs.finalizedEpoch ≤ hfeStep p acc pid := by
        simp only [hfeStep, hcs]
        split <;> omega
      exact le_trans h1 (foldl_hfeStep_le p xs _)
    · exact ih _ pid hmem' cs hcs

/-- The fold result is the accumulator or is attained by a retrievable
peer in the list. -/
theorem foldl_hfeStep_attained (p : PeerEnv) (l : List Nat) (acc : Nat) :
    l.foldl (hfeStep p) acc = acc ∨
    ∃ pid ∈ l, ∃ cs, p.chainState pid = some cs ∧
      cs.finalizedEpoch = l.foldl (hfeStep p) acc := by
  induction l generalizing acc with
  | nil => left; rfl
  | cons x xs ih =>
    rcases ih (hfeStep p acc x) with h2 | ⟨pid, hm, cs, hcs, h2⟩
    · rcases hfeStep_cases p acc x with h1 | ⟨cs, hcs, h1⟩
      · left
        show xs.foldl (hfeStep p) (hfeStep p acc x) = acc
        rw [h2, h1]
      · right
        refine ⟨x, List.mem_cons_self x xs, cs, hcs, ?_⟩
        show cs.finalizedEpoch = xs.foldl (hfeStep p) (hfeStep p acc x)
        rw [h2, h1]
    · right
      exact ⟨pid, List.mem_cons_of_mem x hm, cs, hcs, h2⟩

/-- If no peer's chain state is retrievable, the fold never moves. -/
theorem foldl_hfeStep_all_none (p : PeerEnv)
    (hall : ∀ pid, p.chainState pid = none) (l : List Nat) (acc : Nat) :
    l.foldl (hfeStep p) acc = acc := by
  induction l generalizing acc with
  | nil => rfl
  | cons x xs ih =>
    have hx : hfeStep p acc x = acc := by
      simp [hfeStep, hall x]
    show xs.foldl (hfeStep p) (hfeStep p acc x) = acc
    rw [hx, ih]

end InitialSync

namespace ChunkCodec

/-- Varint decode is a left inverse of encode, for any trailing bytes. -/
theorem varintDecode_encode (n : Nat) (extra : List Nat) :
    varintDecode (varintEncode n ++ extra) = some (n, extra) := by
  induction n using Nat.strong_induction_on with
  | _ n ih =>
    unfold varintEncode
    by_cases h : n < 128
    · simp [h, varintDecode]
    · rw [dif_neg h]
      simp only [List.cons_append]
      unfold varintDecode
      rw [if_neg (by omega)]
      rw [ih (n / 128) (Nat.div_lt_self (by omega) (by omega))]
      show some (n % 128 + 128 - 128 + 128 * (n / 128), extra) = some (n, extra)
      have h2 : n % 128 + 128 - 128 + 128 * (n / 128) = n := by omega
      rw [h2]

end ChunkCodec

/-- **C1.** Every call to `processBlock` rejects a block whose slot is at
or below `lastProcessedSlot` with an error, and an accepted block sets
`lastProcessedSlot` to its own slot; hence across two consecutively
accepted blocks the slots strictly increase and no two accepted blocks
share a slot. -/
theorem c1_processBlock_slot_monotonic
    (env : InitialSync.GateEnv) (recv : InitialSync.RecvFn)
    (st : InitialSync.St) (blk : InitialSync.Block) :
    (blk.slot ≤ st.lastProcessedSlot →
      InitialSync.processBlock env recv st blk =
        .error .slotAlreadyProcessed) ∧
    (∀ st', InitialSync.processBlock env recv st blk = .ok st' →
      st'.lastProcessedSlot = blk.slot ∧ st.lastProcessedSlot < blk.slot) ∧
    (∀ blk' st' st'',
      InitialSync.processBlock env recv st blk = .ok st' →
      InitialSync.processBlock env recv st' blk' = .ok st'' →
      blk.slot < blk'.slot) := by
  refine ⟨?_, ?_, ?_⟩
  · intro hle
    simp [InitialSync.processBlock, hle]
  · intro st' hok
    have h := InitialSync.processBlock_ok_elim env recv st blk st' hok
    exact ⟨h.2, h.1⟩
  · intro blk' st' st'' hok hok'
    have h1 := InitialSync.processBlock_ok_elim env recv st blk st' hok
    have h2 := InitialSync.processBlock_ok_elim env recv st' blk' st'' hok'
    omega

/-- Witness for C1 at concrete inputs: with watermark 3, a block at
slot 5 is accepted (watermark becomes 5) and a block at slot 3 is
rejected. -/
theorem c1_processBlock_slot_monotonic_witness :
    InitialSync.processBlock InitialSync.gateEnvW InitialSync.recvW
        ⟨3, 3⟩ ⟨5, 0⟩ = .ok ⟨5, 5⟩ ∧
    InitialSync.processBlock InitialSync.gateEnvW InitialSync.recvW
        ⟨3, 3⟩ ⟨3, 0⟩ = .error .slotAlreadyProcessed := by
  have h := c1_processBlock_slot_monotonic InitialSync.gateEnvW InitialSync.recvW
    ⟨3, 3⟩ ⟨3, 0⟩
  exact ⟨rfl, h.1 (by decide)⟩

/-- **C2.** A candidate above the watermark whose root computes but whose
parent root is in neither the db nor the in-flight cache is rejected
with the orphan error. The functional state is returned only on
success, so the caller's `lastProcessedSlot` is unchanged, and a
subsequent valid block offered from the same state is still admitted. -/
theorem c2_processBlock_orphan_rejected
    (env : InitialSync.GateEnv) (recv : InitialSync.RecvFn)
    (st : InitialSync.St) (blk : InitialSync.Block) (r : InitialSync.Root)
    (hgt : st.lastProcessedSlot < blk.slot)
    (hroot : env.blockRoot blk = some r)
    (hdb : env.dbHasBlock blk.parentRoot = false)
    (hcache : env.hasInitSyncBlock blk.parentRoot = false) :
    InitialSync.processBlock env recv st blk = .error .orphanBlock ∧
    (∀ blk' r' h', st.lastProcessedSlot < blk'.slot →
      env.blockRoot blk' = some r' →
      (env.dbHasBlock blk'.parentRoot = true ∨
        env.hasInitSyncBlock blk'.parentRoot = true) →
      recv st.chainHead blk' r' = some h' →
      InitialSync.processBlock env recv st blk' = .ok ⟨blk'.slot, h'⟩) := by
  constructor
  · unfold InitialSync.processBlock
    rw [if_neg (Nat.not_le_of_lt hgt)]
    simp [hroot, hdb, hcache]
  · intro blk' r' h' h1 h2 h3 h4
    exact InitialSync.processBlock_ok_intro env recv st blk' r' h' h1 h2 h3 h4

/-- Witness for C2 at concrete inputs: from watermark 3, a block at
slot 50 with unknown parent 7 is rejected as an orphan, and a valid
block at slot 5 (parent 0, stored) is then admitted. -/
theorem c2_processBlock_orphan_rejected_witness :
    InitialSync.processBlock InitialSync.gateEnvW InitialSync.recvW
        ⟨3, 3⟩ ⟨50, 7⟩ = .error .orphanBlock ∧
    InitialSync.processBlock InitialSync.gateEnvW InitialSync.recvW
        ⟨3, 3⟩ ⟨5, 0⟩ = .ok ⟨5, 5⟩ := by
  have h := c2_processBlock_orphan_rejected InitialSync.gateEnvW
    InitialSync.recvW ⟨3, 3⟩ ⟨50, 7⟩ 150 (by decide) rfl rfl rfl
  exact ⟨h.1, h.2 ⟨5, 0⟩ 105 5 (by decide) rfl (Or.inl rfl) rfl⟩

/-- **C4.** Round-trip of the chunk codec: a message whose encoded
payload is at or below the bound is written by `WriteChunk` as
status-byte-then-frame, and `readResponseChunk` on those very bytes
returns the original message; a payload exceeding the bound is refused
by the writer, and a frame claiming such a payload always fails to
decode. -/
theorem c4_chunk_roundtrip (bound : Nat) (msg : List Nat) :
    (msg.length ≤ bound →
      ChunkCodec.WriteChunk (fun _ => true) ⟨none, []⟩ bound msg =
        (⟨none, ChunkCodec.responseCodeSuccess ::
          (ChunkCodec.varintEncode msg.length ++ msg)⟩, true) ∧
      ChunkCodec.readResponseChunk bound
        (ChunkCodec.WriteChunk (fun _ => true) ⟨none, []⟩ bound msg).1.out =
        .ok msg) ∧
    (bound < msg.length →
      (ChunkCodec.WriteChunk (fun _ => true) ⟨none, []⟩ bound msg).2 = false ∧
      ChunkCodec.readResponseChunk bound
        (ChunkCodec.responseCodeSuccess ::
          (ChunkCodec.varintEncode msg.length ++ msg)) =
        .error .decodeError) := by
  constructor
  · intro h
    have hnlt : ¬ bound < msg.length := Nat.not_lt.mpr h
    have hw : ChunkCodec.WriteChunk (fun _ => true) ⟨none, []⟩ bound msg =
        (⟨none, ChunkCodec.responseCodeSuccess ::
          (ChunkCodec.varintEncode msg.length ++ msg)⟩, true) := by
      simp [ChunkCodec.WriteChunk, ChunkCodec.writeS,
        ChunkCodec.encodeWithMaxLength, hnlt]
    refine ⟨hw, ?_⟩
    rw [hw]
    simp [ChunkCodec.readResponseChunk, ChunkCodec.ReadStatusCode,
      ChunkCodec.responseCodeSuccess, ChunkCodec.decodeWithMaxLength,
      ChunkCodec.varintDecode_encode, hnlt]
  · intro h
    constructor
    · simp [ChunkCodec.WriteChunk, ChunkCodec.writeS,
        ChunkCodec.encodeWithMaxLength, h]
    · simp [ChunkCodec.readResponseChunk, ChunkCodec.ReadStatusCode,
        ChunkCodec.responseCodeSuccess, ChunkCodec.decodeWithMaxLength,
        ChunkCodec.varintDecode_encode, h]

/-- Witness for C4 at concrete inputs: with bound 8, the payload
`[1,2,3]` survives the write-read round trip; with bound 2, a frame
claiming the 3-byte payload `[9,9,9]` fails to decode. -/
theorem c4_chunk_roundtrip_witness :
    ChunkCodec.readResponseChunk 8
      (ChunkCodec.WriteChunk (fun _ => true) ⟨none, []⟩ 8 [1, 2, 3]).1.out =
      .ok [1, 2, 3] ∧
    ChunkCodec.readResponseChunk 2
      (ChunkCodec.responseCodeSuccess ::
        (ChunkCodec.varintEncode 3 ++ [9, 9, 9])) = .error .decodeError := by
  exact ⟨((c4_chunk_roundtrip 8 [1, 2, 3]).1 (by decide)).2,
    ((c4_chunk_roundtrip 2 [9, 9, 9]).2 (by decide)).2⟩

/-- **C5.** A chunk whose status byte is nonzero surfaces as the error
carrying exactly the peer-supplied error string and is never decoded
into the destination; a zero status byte leads to decoding the payload
into the destination, with the length bound enforced. -/
theorem c5_peer_error_propagation (bound code : Nat)
    (rest emsg rest' : List Nat)
    (hcode : code ≠ 0)
    (hdec : ChunkCodec.decodeWithMaxLength bound rest = some (emsg, rest')) :
    ChunkCodec.readResponseChunk bound (code :: rest) =
      .error (.peerError emsg) ∧
    (∀ p, ChunkCodec.readResponseChunk bound (code :: rest) ≠ .ok p) ∧
    (∀ p r2, ChunkCodec.decodeWithMaxLength bound rest = some (p, r2) →
      ChunkCodec.readResponseChunk bound (0 :: rest) = .ok p) ∧
    (∀ len tail, bound < len →
      ChunkCodec.decodeWithMaxLength bound
        (ChunkCodec.varintEncode len ++ tail) = none) := by
  have h1 : ChunkCodec.readResponseChunk bound (code :: rest) =
      .error (.peerError emsg) := by
    simp [ChunkCodec.readResponseChunk, ChunkCodec.ReadStatusCode, hcode, hdec]
  refine ⟨h1, ?_, ?_, ?_⟩
  · intro p
    rw [h1]
    simp
  · intro p r2 hd
    simp [ChunkCodec.readResponseChunk, ChunkCodec.ReadStatusCode, hd]
  · intro len tail hlt
    simp [ChunkCodec.decodeWithMaxLength, ChunkCodec.varintDecode_encode, hlt]

/-- Witness for C5 at concrete inputs: the chunk `0x01` followed by the
length-prefixed bytes of `"boom"` reads back as the peer error whose
message is exactly `"boom"` (`[98,111,111,109]`). -/
theorem c5_peer_error_propagation_witness :
    ChunkCodec.readResponseChunk 1024 (1 :: [4, 98, 111, 111, 109]) =
      .error (.peerError [98, 111, 111, 109]) ∧
    ChunkCodec.readResponseChunk 1024 (0 :: [4, 98, 111, 111, 109]) =
      .ok [98, 111, 111, 109] := by
  have h := c5_peer_error_propagation 1024 1 [4, 98, 111, 111, 109]
    [98, 111, 111, 109] [] (by decide) (by decide)
  exact ⟨h.1, h.2.2.1 [98, 111, 111, 109] [] (by decide)⟩

/-- **C7.** The chunk write path sets the bounded write deadline, writes
exactly one success status byte `0x00` before the length-prefixed
payload, enforces the bound through the encoder, and fails on a
transport write failure or an oversize payload. -/
theorem c7_chunkWriter_framing (acc : ChunkCodec.Transport)
    (st : ChunkCodec.WStream) (bound : Nat) (msg : List Nat) :
    (ChunkCodec.chunkWriter acc st bound msg).1.deadline =
      some ChunkCodec.defaultWriteDuration ∧
    ((ChunkCodec.chunkWriter acc st bound msg).2 = true →
      (ChunkCodec.chunkWriter acc st bound msg).1.out =
        st.out ++ ChunkCodec.responseCodeSuccess ::
          (ChunkCodec.varintEncode msg.length ++ msg) ∧
      msg.length ≤ bound) ∧
    (bound < msg.length → (ChunkCodec.chunkWriter acc st bound msg).2 = false) ∧
    (acc (st.out ++ [ChunkCodec.responseCodeSuccess]) = false →
      (ChunkCodec.chunkWriter acc st bound msg).2 = false) := by
  unfold ChunkCodec.chunkWriter ChunkCodec.WriteChunk ChunkCodec.writeS
    ChunkCodec.encodeWithMaxLength
  by_cases h1 : acc (st.out ++ [ChunkCodec.responseCodeSuccess]) = true
  · by_cases h2 : bound < msg.length
    · simp [h1, h2]
    · by_cases h3 : acc (st.out ++ ChunkCodec.responseCodeSuccess ::
          (ChunkCodec.varintEncode msg.length ++ msg)) = true
      · simp [h1, h2, h3, Nat.le_of_not_lt h2, List.append_assoc]
      · simp [h1, h2, h3]
  · simp [h1]

/-- Witness for C7 at concrete inputs: a permissive transport, prior
bytes `[5]`, bound 4, payload `[1,2]`: the deadline is set and the
stream carries `[5]` then `0x00` then the frame `[2,1,2]`. -/
theorem c7_chunkWriter_framing_witness :
    (ChunkCodec.chunkWriter (fun _ => true) ⟨none, [5]⟩ 4 [1, 2]).1.deadline =
      some ChunkCodec.defaultWriteDuration ∧
    (ChunkCodec.chunkWriter (fun _ => true) ⟨none, [5]⟩ 4 [1, 2]).1.out =
      [5, 0, 2, 1, 2] := by
  have h := c7_chunkWriter_framing (fun _ => true) ⟨none, [5]⟩ 4 [1, 2]
  refine ⟨h.1, ?_⟩
  have h2 := h.2.1 (by
    simp [ChunkCodec.chunkWriter, ChunkCodec.WriteChunk, ChunkCodec.writeS,
      ChunkCodec.encodeWithMaxLength])
  rw [h2.1]
  simp [ChunkCodec.varintEncode, ChunkCodec.responseCodeSuccess]

/-- **C9.** The only non-nil value `roundRobinSync` can return is a
queue-start failure: its Go return value equals the `queue.start()`
error on every run, so once the queue starts the caller sees nil
whether Phase 2 aborted (batch failure, block failure) or the sync
completed. -/
theorem c9_return_is_queue_start_error (env : InitialSync.SyncEnv) (fuel : Nat) :
    InitialSync.goReturn (InitialSync.roundRobinSync env fuel) =
      env.queueStartErr := by
  cases h : env.queueStartErr with
  | some e => simp [InitialSync.roundRobinSync, InitialSync.goReturn, h]
  | none =>
    simp only [InitialSync.roundRobinSync, h]
    rw [← apply_ite Except.ok]
    rfl

/-- **C6.** When the selected peer answers a Phase 2 request with an
empty batch while the head is still below the target, the loop breaks
cleanly: the state is unchanged, the outcome is the clean
`emptyBatch` break, and the head stays below the target. -/
theorem c6_phase2_empty_batch_clean_exit (env : InitialSync.SyncEnv)
    (st : InitialSync.St) (fuel : Nat)
    (hfuel : 0 < fuel)
    (hg : st.chainHead < env.slotsSinceGenesis)
    (hreq : env.requestBlocks (InitialSync.mkBatchRequest env.slotsSinceGenesis
      st.chainHead env.blocksPerSecond) = some []) :
    InitialSync.phase2Loop env st fuel =
      (st, .emptyBatch, [InitialSync.mkBatchRequest env.slotsSinceGenesis
        st.chainHead env.blocksPerSecond]) ∧
    st.chainHead < env.slotsSinceGenesis := by
  obtain ⟨n, rfl⟩ : ∃ n, fuel = n + 1 := ⟨fuel - 1, by omega⟩
  refine ⟨?_, hg⟩
  unfold InitialSync.phase2Loop
  rw [if_pos hg]
  simp [hreq, InitialSync.processBatch]

/-- Witness for C6 at concrete inputs: in `envC6` (head 0, target 10,
peer answering with empty batches) the loop exits after one request,
state unchanged. -/
theorem c6_phase2_empty_batch_clean_exit_witness :
    InitialSync.phase2Loop InitialSync.envC6 ⟨0, 0⟩ 1 =
      (⟨0, 0⟩, .emptyBatch, [⟨1, 11, 1⟩]) := by
  have h := c6_phase2_empty_batch_clean_exit InitialSync.envC6 ⟨0, 0⟩ 1
    (by decide) (by decide) rfl
  exact h.1

/-- **C3 (counterexample).** The claim says a failure of an individual
block never causes the sync run to terminate. In `envC3` the very first
Phase 2 batch carries one orphaned block; its rejection by the
admission gate ends the whole run (`return nil` in the source) with the
head (0) still far below the target (slot 10) and fuel to spare —
refuting the claim at a concrete input. -/
theorem c3_counterexample_block_failure_terminates :
    InitialSync.roundRobinSync InitialSync.envC3 3 =
      .ok (⟨0, 0⟩, .blockFailed, [⟨1, 11, 1⟩]) ∧
    (⟨(0 : Nat), 0⟩ : InitialSync.St).chainHead <
      InitialSync.envC3.slotsSinceGenesis := by
  exact ⟨rfl, by decide⟩

/-- **C3 (amended).** Phase 1 absorbs every per-block failure (the loop
continues unchanged past a rejected block); in Phase 2 both a batch
request failure and an individual block failure end the run, and in
all cases the run ends as a normal return value — for any environment
whose queue starts, `roundRobinSync` returns an `ok` value. -/
theorem c3_amended_error_propagation (env : InitialSync.SyncEnv)
    (st : InitialSync.St) (blk : InitialSync.Block)
    (rest : List InitialSync.Block) (e : InitialSync.ProcessErr) (fuel : Nat)
    (herr : InitialSync.processBlock env.gate env.recvInitSync st blk =
      .error e) :
    InitialSync.phase1 env.gate env.recvInitSync st (blk :: rest) =
      InitialSync.phase1 env.gate env.recvInitSync st rest ∧
    (env.queueStartErr = none →
      ∃ r, InitialSync.roundRobinSync env fuel = .ok r) := by
  constructor
  · simp only [InitialSync.phase1, herr]
  · intro h
    simp only [InitialSync.roundRobinSync, h]
    exact ⟨_, (apply_ite Except.ok _ _ _).symm⟩

/-- Witness for the amended C3 at concrete inputs: the orphan block at
slot 5 is skipped by Phase 1 without effect, and the `envC3` run (whose
Phase 2 fails on that same block) still ends with an `ok` value. -/
theorem c3_amended_error_propagation_witness :
    InitialSync.phase1 InitialSync.envC3.gate InitialSync.envC3.recvInitSync
      ⟨0, 0⟩ [⟨5, 7⟩] = ⟨0, 0⟩ ∧
    ∃ r, InitialSync.roundRobinSync InitialSync.envC3 3 = .ok r := by
  have h := c3_amended_error_propagation InitialSync.envC3 ⟨0, 0⟩ ⟨5, 7⟩ []
    .orphanBlock 3 rfl
  exact ⟨h.1, h.2 rfl⟩

/-- **C8.** Every Phase 2 range request has `StartSlot = headSlot + 1`,
`Step = 1`, and `Count = min(slotsSinceGenesis − headSlot + 1,
blocksPerSecond)` for the head slot at the moment it was built; `Count`
never exceeds the throughput budget, and under the loop guard
`headSlot < slotsSinceGenesis` the uint64 subtraction cannot
underflow. -/
theorem c8_phase2_request_shape (env : InitialSync.SyncEnv)
    (st : InitialSync.St) (fuel : Nat)
    (hss : env.slotsSinceGenesis < InitialSync.U64) :
    ∀ req ∈ (InitialSync.phase2Loop env st fuel).2.2,
      ∃ h, h < env.slotsSinceGenesis ∧
        req = InitialSync.mkBatchRequest env.slotsSinceGenesis h
          env.blocksPerSecond ∧
        req.startSlot = h + 1 ∧ req.step = 1 ∧
        req.count ≤ env.blocksPerSecond ∧
        InitialSync.usub env.slotsSinceGenesis h =
          env.slotsSinceGenesis - h ∧
        (env.slotsSinceGenesis - h + 1 < InitialSync.U64 →
          req.count = min (env.slotsSinceGenesis - h + 1)
            env.blocksPerSecond) := by
  induction fuel generalizing st with
  | zero =>
    intro req hreq
    simp [InitialSync.phase2Loop] at hreq
  | succ n ih =>
    intro req hreq
    have hhead : ∀ r, r = InitialSync.mkBatchRequest env.slotsSinceGenesis
        st.chainHead env.blocksPerSecond →
        st.chainHead < env.slotsSinceGenesis →
        ∃ h, h < env.slotsSinceGenesis ∧
          r = InitialSync.mkBatchRequest env.slotsSinceGenesis h
            env.blocksPerSecond ∧
          r.startSlot = h + 1 ∧ r.step = 1 ∧
          r.count ≤ env.blocksPerSecond ∧
          InitialSync.usub env.slotsSinceGenesis h =
            env.slotsSinceGenesis - h ∧
          (env.slotsSinceGenesis - h + 1 < InitialSync.U64 →
            r.count = min (env.slotsSinceGenesis - h + 1)
              env.blocksPerSecond) := by
      intro r hr hg
      subst hr
      have hspec := InitialSync.mkBatchRequest_spec env.slotsSinceGenesis
        st.chainHead env.blocksPerSecond hg hss
      exact ⟨st.chainHead, hg, rfl, hspec.1, hspec.2.1, hspec.2.2.1,
        hspec.2.2.2.1, hspec.2.2.2.2⟩
    unfold InitialSync.phase2Loop at hreq
    by_cases hg : st.chainHead < env.slotsSinceGenesis
    · rw [if_pos hg] at hreq
      cases hrb : env.requestBlocks (InitialSync.mkBatchRequest
          env.slotsSinceGenesis st.chainHead env.blocksPerSecond) with
      | none =>
        simp only [hrb, List.mem_singleton] at hreq
        exact hhead req hreq hg
      | some resp =>
        simp only [hrb] at hreq
        by_cases hp : (InitialSync.processBatch env.gate env.recvNoPubsub
            st resp).2 = true
        · by_cases hemp : resp.isEmpty = true
          · simp [hp, hemp] at hreq
            exact hhead req hreq hg
          · simp [hp, hemp] at hreq
            rcases hreq with hreq | hreq
            · exact hhead req hreq hg
            · exact ih _ req hreq
        · simp [hp] at hreq
          exact hhead req hreq hg
    · rw [if_neg hg] at hreq
      simp at hreq

/-- Witness for C8 at concrete inputs: the `envC3` run issues exactly
the request `{startSlot 1, count 11, step 1}`, whose count stays below
the 64-block budget. -/
theorem c8_phase2_request_shape_witness :
    (InitialSync.phase2Loop InitialSync.envC3 ⟨0, 0⟩ 3).2.2 =
      [⟨1, 11, 1⟩] ∧
    (⟨1, 11, 1⟩ : InitialSync.Req).step = 1 ∧
    (⟨1, 11, 1⟩ : InitialSync.Req).count ≤
      InitialSync.envC3.blocksPerSecond := by
  have hlist : (InitialSync.phase2Loop InitialSync.envC3 ⟨0, 0⟩ 3).2.2 =
      [⟨1, 11, 1⟩] := rfl
  have h := c8_phase2_request_shape InitialSync.envC3 ⟨0, 0⟩ 3
    (by norm_num [InitialSync.envC3, InitialSync.envC6, InitialSync.U64])
    ⟨1, 11, 1⟩
    (by rw [hlist]; exact List.mem_singleton_self _)
  obtain ⟨h0, hlt, heq, hstart, hstep, hcount, husub, hcnt⟩ := h
  exact ⟨hlist, hstep, hcount⟩

/-- **C10.** `highestFinalizedEpoch` is the maximum finalized epoch over
connected peers with a retrievable chain state (it dominates each of
them and, unless it is 0, is attained by one); with no peers or no
retrievable chain state it is 0, and then the Phase 1 target is the
start slot of epoch 1. -/
theorem c10_highestFinalizedEpoch_max (spe : Nat) (p : InitialSync.PeerEnv) :
    (∀ pid ∈ p.connected, ∀ cs, p.chainState pid = some cs →
      cs.finalizedEpoch ≤ InitialSync.highestFinalizedEpoch p) ∧
    (InitialSync.highestFinalizedEpoch p = 0 ∨
      ∃ pid ∈ p.connected, ∃ cs, p.chainState pid = some cs ∧
        cs.finalizedEpoch = InitialSync.highestFinalizedEpoch p) ∧
    (p.connected = [] → InitialSync.highestFinalizedEpoch p = 0) ∧
    ((∀ pid, p.chainState pid = none) →
      InitialSync.highestFinalizedEpoch p = 0) ∧
    (InitialSync.highestFinalizedEpoch p = 0 →
      InitialSync.phase1Target spe p = InitialSync.startSlot spe 1) := by
  refine ⟨?_, ?_, ?_, ?_, ?_⟩
  · exact InitialSync.foldl_hfeStep_bound p p.connected 0
  · exact InitialSync.foldl_hfeStep_attained p p.connected 0
  · intro h
    unfold InitialSync.highestFinalizedEpoch
    rw [h]
    rfl
  · intro h
    exact InitialSync.foldl_hfeStep_all_none p h p.connected 0
  · intro h
    unfold InitialSync.phase1Target
    rw [h]

/-- Witness for C10 at concrete inputs: in `peerEnvW` the result is 7
and dominates peer 2's epoch 7; in the peerless `peerEnvE` the result
is 0 and the Phase 1 target with 32-slot epochs is slot 32. -/
theorem c10_highestFinalizedEpoch_max_witness :
    InitialSync.highestFinalizedEpoch InitialSync.peerEnvW = 7 ∧
    (7 : Nat) ≤ InitialSync.highestFinalizedEpoch InitialSync.peerEnvW ∧
    InitialSync.highestFinalizedEpoch InitialSync.peerEnvE = 0 ∧
    InitialSync.phase1Target 32 InitialSync.peerEnvE = 32 := by
  have h1 := c10_highestFinalizedEpoch_max 32 InitialSync.peerEnvW
  have h2 := c10_highestFinalizedEpoch_max 32 InitialSync.peerEnvE
  refine ⟨rfl, ?_, ?_, ?_⟩
  · exact h1.1 2 (by decide) ⟨7⟩ rfl
  · exact h2.2.2.1 rfl
  · exact h2.2.2.2.2 rfl
